import Mathlib

/-!
Shallow embedding of the writewise-nlp text-quality pipeline
(sentence parser, grammar rule checker, spell checker, severity manager,
error fusion engine, input validation) together with theorems checking
the natural-language specification against the code.

Python dicts that flow between the stages are duck-typed records; they are
modelled by a single structure `PyRec` whose fields are all optional
(`none` models an absent key).  Python strings are modelled by Lean
`String` restricted to the ASCII behaviour of `lower`, `strip`, `split`,
`isalpha`, `isdigit`, `isupper`.  Python floats (the ML confidence values)
are modelled by `ℚ`.  The dictionary resource (a newline-delimited word
file loaded at startup) and the difflib similarity-ratio function are
external to the repository's source and are passed as parameters.
-/

set_option autoImplicit false

/-- Apostrophe character, written via its code point. -/
def apos : Char := Char.ofNat 39

/-- Apostrophe as a one-character string. -/
def aposS : String := String.singleton apos

/-- Python `str.lower()` on one character (ASCII model). -/
def pyLowerChar (c : Char) : Char :=
  if c.isUpper then Char.ofNat (c.toNat + 32) else c

/-- Python `str.lower()` (ASCII model). -/
def pyLower (s : String) : String := String.mk (s.data.map pyLowerChar)

/-- Python `str.startswith` (character-list implementation). -/
def pyStartsWith (s pre : String) : Bool := pre.data.isPrefixOf s.data

/-- Python `str.endswith` (character-list implementation). -/
def pyEndsWith (s suf : String) : Bool := suf.data.isSuffixOf s.data

/-- Drop the last `n` characters (character-list implementation). -/
def pyDropRight (s : String) (n : Nat) : String :=
  String.mk (s.data.take (s.data.length - n))

/-- Python truthiness of an optional string value: `None` and the empty
string are falsy. -/
def truthyStr : Option String → Bool
  | none => false
  | some s => !s.data.isEmpty

/-- Maximal runs of non-whitespace characters, as in Python `str.split()`
with no arguments.  The accumulator holds the reversed current run. -/
def splitWsAux : List Char → List Char → List (List Char)
  | [], [] => []
  | [], run => [run.reverse]
  | c :: cs, run =>
    if c.isWhitespace then
      match run with
      | [] => splitWsAux cs []
      | _ => run.reverse :: splitWsAux cs []
    else splitWsAux cs (c :: run)

/-- Python `str.split()` (split on whitespace runs, dropping empties). -/
def pySplit (s : String) : List String :=
  (splitWsAux s.data []).map String.mk

/-- Python `str.strip()` (ASCII whitespace model). -/
def pyStrip (s : String) : String :=
  String.mk (((s.data.dropWhile Char.isWhitespace).reverse.dropWhile
    Char.isWhitespace).reverse)

/-- Duck-typed issue record: the union of the dictionary keys used by the
spell checker, grammar rule checker, style detector and fusion engine.
An absent key is `none`. -/
structure PyRec where
  issue_id : Option Nat := none
  issue_type : Option String := none
  source : Option String := none
  error_word : Option String := none
  start_index : Option Nat := none
  length : Option Nat := none
  end_index : Option Nat := none
  reason : Option String := none
  context : Option String := none
  suggestions : Option (List String) := none
  word : Option String := none
  token : Option String := none
  type : Option String := none
  message : Option String := none
  suggestion : Option String := none
  sentence_id : Option Nat := none
  severity : Option String := none
  deriving DecidableEq, Inhabited, Repr

/-- Python truthiness of a record (a dict is truthy iff it is non-empty,
i.e. at least one key is present). -/
def recTruthy (r : PyRec) : Bool :=
  r.issue_id.isSome || r.issue_type.isSome || r.source.isSome ||
  r.error_word.isSome || r.start_index.isSome || r.length.isSome ||
  r.end_index.isSome || r.reason.isSome || r.context.isSome ||
  r.suggestions.isSome || r.word.isSome || r.token.isSome ||
  r.type.isSome || r.message.isSome || r.suggestion.isSome ||
  r.sentence_id.isSome || r.severity.isSome

/-! ## Severity manager (`decision_engine/severity_manager.py`) -/

/-- SeverityManager.classify: spelling is medium, the three grammar rule
types are high, everything else is low. -/
def severityClassify (issueType : String) : String :=
  if ["spelling"].contains issueType then "medium"
  else if ["tense_mismatch", "subject_verb_agreement",
           "missing_auxiliary"].contains issueType then "high"
  else "low"

/-! ## Sentence parser tense detection (`context_analyzer/sentence_parser.py`) -/

/-- SentenceParser.PAST_MARKERS. -/
def PAST_MARKERS : List String := ["yesterday", "ago", "last"]

/-- SentenceParser.FUTURE_MARKERS. -/
def FUTURE_MARKERS : List String := ["tomorrow", "next", "will"]

/-- SentenceParser._detect_tense: lowercased token set; future markers
first, then the VBD tag scan, then past markers, else present. -/
def detectTense (posTags : List (String × String)) (tokens : List String) :
    String :=
  let tokenSet := tokens.map pyLower
  if tokenSet.contains "will" ||
      tokenSet.any (fun t => FUTURE_MARKERS.contains t) then "future"
  else if posTags.any (fun p => p.2 == "VBD") then "past"
  else if tokenSet.any (fun t => PAST_MARKERS.contains t) then "past"
  else "present"

/-! ## Grammar rule checker (`context_analyzer/grammar_rules.py`) -/

/-- Input record for GrammarRuleChecker.check (the parsed-sentence dict
produced by SentenceParser.parse). -/
structure GSentence where
  subject : Option String := none
  main_verb : Option String := none
  tense : Option String := none
  pos_tags : List (String × String) := []
  sentence_id : Option Nat := none
  deriving DecidableEq, Inhabited, Repr

/-- GrammarRuleChecker._get_suggestion. -/
def grammarSuggestion (issueType : String) : String :=
  if issueType == "subject_verb_agreement" then
    "Ensure that the verb form matches the subject (singular subjects take singular verbs, plural subjects take plural verbs)."
  else if issueType == "tense_mismatch" then
    "Maintain consistent verb tense throughout the sentence. Check whether the time reference matches the verb form."
  else if issueType == "missing_auxiliary" then
    "Check whether an auxiliary verb (is, are, was, were, has, have, had) is required for correct sentence structure."
  else "Review the sentence structure for grammatical accuracy."

/-- Loop body of GrammarRuleChecker._subject_verb_mismatch: remember
whether the token equal to the subject carries a plural tag, and flag
VBZ after a plural subject or VBP after a singular subject. -/
def svmLoop (subject : String) (plural : Bool) :
    List (String × String) → Bool
  | [] => false
  | (w, t) :: rest =>
    if w == subject then
      svmLoop subject (t == "NNS" || t == "NNPS") rest
    else if t == "VBZ" && plural then true
    else if t == "VBP" && !plural then true
    else svmLoop subject plural rest

/-- GrammarRuleChecker._subject_verb_mismatch. -/
def subjectVerbMismatch (subject : String) (posTags : List (String × String)) :
    Bool :=
  svmLoop subject false posTags

/-- GrammarRuleChecker._tense_mismatch: past tense with a present verb tag
(VBZ/VBP), or future tense with a plain past tag (VBD). -/
def tenseMismatch (tense : Option String) (posTags : List (String × String)) :
    Bool :=
  posTags.any (fun p =>
    (tense == some "past" && (p.2 == "VBZ" || p.2 == "VBP")) ||
    (tense == some "future" && p.2 == "VBD"))

/-- Auxiliary word set used by GrammarRuleChecker._missing_auxiliary. -/
def AUXILIARIES : List String := ["is", "are", "was", "were", "has", "have", "had"]

/-- GrammarRuleChecker._missing_auxiliary: a VBG or VBN verb tag with no
auxiliary token anywhere in the sentence. -/
def missingAuxiliary (posTags : List (String × String)) : Bool :=
  let verbs := (posTags.map Prod.snd).filter (fun t => pyStartsWith t "VB")
  if verbs.contains "VBG" || verbs.contains "VBN" then
    !(posTags.any (fun p => AUXILIARIES.contains (pyLower p.1)))
  else false

/-- Grammar issue record for one triggered rule. -/
def mkGrammarIssue (issueType msg : String) (sid : Option Nat) : PyRec :=
  { type := some issueType, message := some msg,
    suggestion := some (grammarSuggestion issueType), sentence_id := sid }

/-- GrammarRuleChecker.check: short-circuit on a falsy subject or verb,
then run the three independent rules in order. -/
def grammarCheck (sd : GSentence) : List PyRec :=
  if !(truthyStr sd.subject) || !(truthyStr sd.main_verb) then []
  else
    (if subjectVerbMismatch (sd.subject.getD "") sd.pos_tags then
      [mkGrammarIssue "subject_verb_agreement"
        "Possible subject–verb agreement error." sd.sentence_id]
     else []) ++
    (if tenseMismatch sd.tense sd.pos_tags then
      [mkGrammarIssue "tense_mismatch"
        "Possible tense inconsistency in sentence." sd.sentence_id]
     else []) ++
    (if missingAuxiliary sd.pos_tags then
      [mkGrammarIssue "missing_auxiliary"
        "Possible missing auxiliary verb." sd.sentence_id]
     else [])

/-! ## Spell normalizer (`nlp/spell_normalizer.py`) -/

/-- IRREGULAR_MAP of spell_normalizer.py. -/
def IRREGULAR_MAP : List (String × String) :=
  [("written", "write"), ("wrote", "write"), ("taken", "take"),
   ("given", "give"), ("done", "do"), ("gone", "go")]

/-- normalize_word: the input word together with its rule-based candidate
base forms (irregular table, plural stripping, verb suffixes, noun
suffixes).  The Python set is modelled as a list built in source order;
only membership is ever used. -/
def normalizeWord (word : String) : List String :=
  [word] ++
  (match List.lookup word IRREGULAR_MAP with
   | some base => [base]
   | none => []) ++
  (if pyEndsWith word "ies" && word.length > 4 then
    [pyDropRight word 3 ++ "y"] else []) ++
  (if pyEndsWith word "s" && word.length > 3 then
    [pyDropRight word 1] else []) ++
  (if pyEndsWith word "ing" && word.length > 5 then
    [pyDropRight word 3, pyDropRight word 3 ++ "e"] else []) ++
  (if pyEndsWith word "ed" && word.length > 4 then
    [pyDropRight word 2] else []) ++
  (["tion", "ment", "ness", "ity"].filterMap (fun suf =>
    if pyEndsWith word suf && word.length > suf.length + 2 then
      some (pyDropRight word suf.length)
    else none))

/-! ## Spell checker ignore rules (`spell_checker/rules.py`) -/

/-- Remove the first occurrence of a character, as in Python
`str.replace(c, "", 1)`. -/
def removeFirst (c : Char) : List Char → List Char
  | [] => []
  | d :: rest => if d == c then rest else d :: removeFirst c rest

/-- is_numeric: the word with its first "." removed is all digits
(Python `isdigit` on a non-empty string; ASCII model). -/
def wordIsNumeric (w : String) : Bool :=
  let cs := removeFirst '.' w.data
  !cs.isEmpty && cs.all Char.isDigit

/-- is_all_caps: Python `str.isupper` (ASCII model): at least one cased
character and no lowercase character. -/
def wordIsAllCaps (w : String) : Bool :=
  w.data.any (fun c => c.isUpper || c.isLower) && !(w.data.any Char.isLower)

/-- is_short: length at most 2. -/
def wordIsShort (w : String) : Bool := w.length ≤ 2

/-- Character lookup helper: the character at an index is non-whitespace. -/
def nonspaceAt (cs : List Char) (i : Nat) : Bool :=
  match cs.get? i with
  | some c => !c.isWhitespace
  | none => false

/-- Prefix match of the email alternative of URL_PATTERN
(a backslash-S run, at-sign, a run, dot, a run): there are positions
`i < j` holding the at-sign and the dot with room on each side and no
whitespace up to one character past the dot. -/
def emailMatch (cs : List Char) : Bool :=
  (List.range cs.length).any (fun i =>
    (List.range cs.length).any (fun j =>
      decide (1 ≤ i) && decide (i + 2 ≤ j) && decide (j + 1 < cs.length) &&
      cs.get? i == some '@' && cs.get? j == some '.' &&
      (cs.take (j + 2)).all (fun c => !c.isWhitespace)))

/-- is_url_or_email: URL_PATTERN.match, i.e. a prefix match of one of the
three alternatives. -/
def wordIsUrlOrEmail (w : String) : Bool :=
  (pyStartsWith w "http://" && nonspaceAt w.data 7) ||
  (pyStartsWith w "https://" && nonspaceAt w.data 8) ||
  (pyStartsWith w "www." && nonspaceAt w.data 4) ||
  emailMatch w.data

/-- is_punctuation_only: no alphanumeric character. -/
def wordIsPunctuationOnly (w : String) : Bool :=
  w.data.all (fun c => !c.isAlphanum)

/-- should_ignore of rules.py. -/
def shouldIgnore (w : String) : Bool :=
  wordIsNumeric w || wordIsAllCaps w || wordIsShort w ||
  wordIsUrlOrEmail w || wordIsPunctuationOnly w

/-! ## Spell checker service (`spell_checker/service.py`) -/

/-- Word characters matched by the backslash-w class (ASCII model:
letters, digits, underscore). -/
def isWordChar (c : Char) : Bool := c.isAlphanum || c == '_'

/-- Scanner for the word-boundary token pattern: accumulates the current
run of word characters (reversed) with its start index and emits maximal
runs, as `re.finditer` does. -/
def findWordsAux : List Char → Nat → Option (Nat × List Char) →
    List (Nat × List Char)
  | [], _, none => []
  | [], _, some (s, run) => [(s, run.reverse)]
  | c :: cs, i, none =>
    if isWordChar c then findWordsAux cs (i + 1) (some (i, [c]))
    else findWordsAux cs (i + 1) none
  | c :: cs, i, some (s, run) =>
    if isWordChar c then findWordsAux cs (i + 1) (some (s, c :: run))
    else (s, run.reverse) :: findWordsAux cs (i + 1) none

/-- All (start index, token) matches of WORD_PATTERN in scan order. -/
def findWords (cs : List Char) : List (Nat × List Char) :=
  findWordsAux cs 0 none

/-- Python `str.rfind(c, 0, stop)` on a character list: largest index
below `stop` holding `c`, else -1. -/
def pyRFind (cs : List Char) (c : Char) (stop : Nat) : Int :=
  match (cs.take stop).reverse.findIdx? (fun d => d == c) with
  | some j => ((cs.take stop).length : Int) - 1 - j
  | none => -1

/-- Python `str.find(c, start)` on a character list: smallest index at or
after `start` holding `c`, else none. -/
def pyFind (cs : List Char) (c : Char) (start : Nat) : Option Nat :=
  ((cs.drop start).findIdx? (fun d => d == c)).map (fun j => j + start)

/-- extract_context: the slice of the text between the nearest sentence
terminator before the error and the nearest one at or after it (or the
text boundaries), stripped. -/
def extractContext (text : String) (startIndex : Nat) : String :=
  let cs := text.data
  let sStart : Int :=
    max (pyRFind cs '.' startIndex)
      (max (pyRFind cs '!' startIndex) (pyRFind cs '?' startIndex))
  let found : List Nat :=
    [pyFind cs '.' startIndex, pyFind cs '!' startIndex,
     pyFind cs '?' startIndex].filterMap id
  let sEnd : Nat :=
    match found.min? with
    | some m => m
    | none => cs.length
  let lo : Nat := (sStart + 1).toNat
  pyStrip (String.mk ((cs.drop lo).take (sEnd + 1 - lo)))

/-- Descending comparison on (score, candidate) pairs as used by
`heapq.nlargest` over difflib result tuples: larger score first, ties
broken by the larger string. -/
def tupleGE (a b : ℚ × String) : Bool :=
  decide (b.1 < a.1) || (a.1 == b.1 && !(decide (a.2 < b.2)))

/-- Insert into a list sorted by the boolean relation `le`. -/
def insertSorted {α : Type} (le : α → α → Bool) (x : α) :
    List α → List α
  | [] => [x]
  | y :: rest => if le x y then x :: y :: rest else y :: insertSorted le x rest

/-- Insertion sort by the boolean relation `le`. -/
def sortByRel {α : Type} (le : α → α → Bool) : List α → List α
  | [] => []
  | x :: rest => insertSorted le x (sortByRel le rest)

/-- difflib.get_close_matches over an abstract similarity-ratio function
`sim`: score every possibility, keep those at or above the cutoff
(the quick-ratio pre-filters are upper bounds of the ratio, so the filter
is equivalent to the final ratio test), order by descending score and
return the first `n` candidates. -/
def getCloseMatches (sim : String → String → ℚ) (word : String)
    (poss : List String) (n : Nat) (cutoff : ℚ) : List String :=
  let scored := (poss.filter (fun x => decide (cutoff ≤ sim x word))).map
    (fun x => (sim x word, x))
  ((sortByRel tupleGE scored).take n).map Prod.snd

/-- generate_suggestions: up to 5 close dictionary matches at cutoff 0.8. -/
def generateSuggestions (dict : List String) (sim : String → String → ℚ)
    (word : String) : List String :=
  getCloseMatches sim word dict 5 (4 / 5)

/-- Issue record appended by check_spelling for a flagged word. -/
def mkSpellIssue (dict : List String) (sim : String → String → ℚ)
    (text : String) (nid : Nat) (s : Nat) (w : List Char) : PyRec :=
  { issue_id := some nid,
    issue_type := some "spelling",
    source := some "spell_checker",
    error_word := some (String.mk w),
    start_index := some s,
    length := some w.length,
    end_index := some (s + w.length),
    reason := some ("The word " ++ aposS ++ String.mk w ++ aposS ++
      " is not spelled correctly."),
    context := some (extractContext text s),
    suggestions := some (generateSuggestions dict sim (pyLower (String.mk w))) }

/-- Loop of check_spelling over the scanned words, threading the next
issue id (incremented only when an issue is appended). -/
def checkSpellingGo (dict : List String) (sim : String → String → ℚ)
    (text : String) : List (Nat × List Char) → Nat → List PyRec
  | [], _ => []
  | (s, w) :: rest, nid =>
    let word := String.mk w
    if shouldIgnore word then checkSpellingGo dict sim text rest nid
    else
      let normalized := pyLower word
      if dict.contains normalized then checkSpellingGo dict sim text rest nid
      else if (normalizeWord normalized).any (fun f => dict.contains f) then
        checkSpellingGo dict sim text rest nid
      else
        mkSpellIssue dict sim text nid s w ::
          checkSpellingGo dict sim text rest (nid + 1)

/-- check_spelling: scan the word tokens left to right, skip ignorable or
dictionary-valid words, flag the rest with sequential ids from 1. -/
def checkSpelling (dict : List String) (sim : String → String → ℚ)
    (text : String) : List PyRec :=
  checkSpellingGo dict sim text (findWords text.data) 1

/-! ## Error fusion engine (`decision_engine/error_fusion.py`) -/

/-- CONTRACTIONS set of error_fusion.py (apostrophe-free forms). -/
def CONTRACTIONS : List String :=
  ["dont", "doesnt", "didnt", "cant", "couldnt", "shouldnt",
   "wouldnt", "wont", "isnt", "arent", "wasnt", "werent",
   "hasnt", "havent", "hadnt",
   "couldve", "shouldve", "wouldve",
   "im", "youre", "were", "theyre", "its",
   "theres", "heres", "whats", "whos"]

/-- Word extraction of _process_spell_error: the chained
`get("word") or get("token") or get("error_word")`, with Python falsiness
(a missing key or an empty string falls through). -/
def getWordField (e : PyRec) : Option String :=
  if truthyStr e.word then e.word
  else if truthyStr e.token then e.token
  else if truthyStr e.error_word then e.error_word
  else none

/-- ErrorFusionEngine._process_spell_error: work on a copy of the record,
mark the type as "suggestion" when a confidence below 0.7 is known for the
word, and attach severity and issue_type.  The writing style argument is
accepted but unused, as in the source. -/
def processSpellError (e : PyRec) (ws : String)
    (conf : List (String × ℚ)) : PyRec :=
  let sev := severityClassify "spelling"
  match getWordField e with
  | none => { e with severity := some sev, issue_type := some "spelling" }
  | some w =>
    let confidence := (List.lookup w conf).getD 1
    let e1 := if confidence < 7 / 10 then { e with type := some "suggestion" }
              else e
    { e1 with severity := some sev, issue_type := some "spelling" }

/-- Style issue record emitted by detect_contraction_style_issue. -/
def mkStyleIssue (sid : Nat) (tok : String) : PyRec :=
  { sentence_id := some sid, type := some "style",
    message := some "Avoid informal contractions in formal academic writing.",
    token := some tok }

/-- Loop of detect_contraction_style_issue over the sentence tokens. -/
def contractionIssues (sid : Nat) : List String → List PyRec
  | [] => []
  | t :: rest =>
    if CONTRACTIONS.contains t then
      mkStyleIssue sid t :: contractionIssues sid rest
    else contractionIssues sid rest

/-- detect_contraction_style_issue: nothing unless the style is formal;
otherwise one style issue per lowercased whitespace token that is in the
contraction set. -/
def detectContractionStyleIssue (sentence : String) (sid : Nat)
    (ws : String) : List PyRec :=
  if ws != "formal" then []
  else contractionIssues sid (pySplit (pyLower sentence))

/-- Pass 1 of fuse: process each spelling error and append the result when
it is truthy (list appends model Python `list.append`). -/
def fusePass1 (ws : String) (conf : List (String × ℚ)) :
    List PyRec → List PyRec → List PyRec
  | [], acc => acc
  | e :: rest, acc =>
    let issue := processSpellError e ws conf
    if recTruthy issue then fusePass1 ws conf rest (acc ++ [issue])
    else fusePass1 ws conf rest acc

/-- Pass 2 of fuse: enumerate the sentences, extend the issue list with
each sentence's style issues and record the sentence ids that produced
any. -/
def fusePass2 (ws : String) : List String → Nat → List PyRec → List Nat →
    List PyRec × List Nat
  | [], _, acc, marked => (acc, marked)
  | s :: rest, i, acc, marked =>
    let styleIssues := detectContractionStyleIssue s i ws
    if styleIssues.isEmpty then fusePass2 ws rest (i + 1) acc marked
    else fusePass2 ws rest (i + 1) (acc ++ styleIssues) (marked ++ [i])

/-- Suppression test of pass 3: drop a grammar issue only when the style
is formal and its sentence id was marked in pass 2 (a missing id is never
suppressed, as Python `None in set` is false). -/
def grammarSuppressed (ws : String) (marked : List Nat) (g : PyRec) : Bool :=
  ws == "formal" &&
    (match g.sentence_id with
     | some j => marked.contains j
     | none => false)

/-- Pass 3 of fuse: append every non-suppressed grammar issue. -/
def fusePass3 (ws : String) (marked : List Nat) :
    List PyRec → List PyRec → List PyRec
  | [], acc => acc
  | g :: rest, acc =>
    if grammarSuppressed ws marked g then fusePass3 ws marked rest acc
    else fusePass3 ws marked rest (acc ++ [g])

/-- ErrorFusionEngine.fuse: the three passes in sequence over one shared
output list. -/
def fuse (spellErrors grammarIssues : List PyRec) (sentences : List String)
    (ws : String) (conf : List (String × ℚ)) : List PyRec :=
  let acc1 := fusePass1 ws conf spellErrors []
  let p2 := fusePass2 ws sentences 0 acc1 []
  fusePass3 ws p2.2 grammarIssues p2.1

/-- All style issues of a sentence list starting at index `i`, in sentence
order (reference shape for the fusion-ordering theorem). -/
def styleIssuesFrom (ws : String) : List String → Nat → List PyRec
  | [], _ => []
  | s :: rest, i =>
    detectContractionStyleIssue s i ws ++ styleIssuesFrom ws rest (i + 1)

/-- Sentence ids marked as containing contractions, starting at index `i`
(reference shape for the pass-2 marked set). -/
def markedFrom (ws : String) : List String → Nat → List Nat
  | [], _ => []
  | s :: rest, i =>
    if (detectContractionStyleIssue s i ws).isEmpty then
      markedFrom ws rest (i + 1)
    else i :: markedFrom ws rest (i + 1)

/-- Grammar issues surviving suppression (reference shape for pass 3). -/
def grammarSurvivors (grammarIssues : List PyRec) (sentences : List String)
    (ws : String) : List PyRec :=
  grammarIssues.filter
    (fun g => !grammarSuppressed ws (markedFrom ws sentences 0) g)

/-! ## Input validation (`src/main.py`) -/

/-- MIN_WORD_COUNT of config.py. -/
def MIN_WORD_COUNT : Nat := 3

/-- MIN_CHAR_COUNT of config.py. -/
def MIN_CHAR_COUNT : Nat := 20

/-- Python `str.isnumeric` (ASCII model): non-empty and all digits. -/
def pyIsNumeric (s : String) : Bool :=
  !s.data.isEmpty && s.data.all Char.isDigit

/-- Number of alphabetic characters (ASCII model of `str.isalpha`). -/
def alphaCount (s : String) : Nat :=
  (s.data.filter Char.isAlpha).length

/-- Result record of validate_input_text. -/
structure ValidationResult where
  is_valid : Bool
  message : String
  deriving DecidableEq, Repr

/-- Rejection message for empty input. -/
def msgEmpty : String := "Input text is empty."

/-- Rejection message for too-short input. -/
def msgShort : String := "Text is too short for reliable analysis."

/-- Rejection message for too few words. -/
def msgWords : String := "Text does not contain enough words."

/-- Rejection message for purely numeric input. -/
def msgNumbers : String := "Text contains only numbers."

/-- Rejection message for a low alphabetic ratio. -/
def msgAlpha : String := "Text contains too many non-alphabetic characters."

/-- validate_input_text: the five rejection checks in source order over
the stripped text; the ratio test `alpha / len < 0.5` is written exactly
as `2 * alpha < len`. -/
def validateInputText (text : String) : ValidationResult :=
  if (pyStrip text).data.isEmpty then ⟨false, msgEmpty⟩
  else
    let cleaned := pyStrip text
    if cleaned.length < MIN_CHAR_COUNT then ⟨false, msgShort⟩
    else if (pySplit cleaned).length < MIN_WORD_COUNT then ⟨false, msgWords⟩
    else if pyIsNumeric cleaned then ⟨false, msgNumbers⟩
    else if 2 * alphaCount cleaned < cleaned.length then ⟨false, msgAlpha⟩
    else ⟨true, "Valid input."⟩

/-- Result record of predict_text_quality, reduced to the fields the
validation gate determines; the successful pipeline output is abstracted
into the `rest` argument below. -/
structure PredictResult where
  error : Bool
  message : String
  deriving DecidableEq, Repr

/-- Validation gate of predict_text_quality (its first step): an invalid
input returns an error record with the validation message and the rest of
the pipeline, abstracted as `rest`, never runs. -/
def predictTextQuality (text : String) (rest : String → PredictResult) :
    PredictResult :=
  let v := validateInputText text
  if v.is_valid then rest text
  else { error := true, message := v.message }

/-! ## Heap model of _process_spell_error (for the no-mutation claim)

Python records live on a heap; `dict(error)` allocates a fresh copy and
all key assignments of _process_spell_error target that copy.  The heap is
a list of records, an address is an index, and allocation appends. -/

/-- Update the record at an address in place (no-op off the heap). -/
def heapUpdate (st : List PyRec) (a : Nat) (f : PyRec → PyRec) :
    List PyRec :=
  match st[a]? with
  | some r => st.set a (f r)
  | none => st

/-- _process_spell_error on the heap: read the input record, allocate the
copy, then perform each Python key assignment as an in-place update of the
copy's address.  Returns the new heap and the copy's address. -/
def processSpellErrorHeap (st : List PyRec) (a : Nat) (ws : String)
    (conf : List (String × ℚ)) : List PyRec × Nat :=
  let err := (st[a]?).getD default
  let sev := severityClassify "spelling"
  let ca := st.length
  let st1 := st ++ [err]
  match getWordField err with
  | none =>
    let st2 := heapUpdate st1 ca (fun r => { r with severity := some sev })
    let st3 := heapUpdate st2 ca (fun r => { r with issue_type := some "spelling" })
    (st3, ca)
  | some w =>
    let confidence := (List.lookup w conf).getD 1
    let st2 :=
      if confidence < 7 / 10 then
        heapUpdate st1 ca (fun r => { r with type := some "suggestion" })
      else st1
    let st3 := heapUpdate st2 ca (fun r => { r with severity := some sev })
    let st4 := heapUpdate st3 ca (fun r => { r with issue_type := some "spelling" })
    (st4, ca)

/-- Pass 1 of fuse on the heap: process the spelling-error records at the
given addresses in order, collecting the copies' addresses. -/
def fuseSpellPassHeap (st : List PyRec) (addrs : List Nat) (ws : String)
    (conf : List (String × ℚ)) : List PyRec × List Nat :=
  match addrs with
  | [] => (st, [])
  | a :: rest =>
    let p := processSpellErrorHeap st a ws conf
    let q := fuseSpellPassHeap p.1 rest ws conf
    (q.1, p.2 :: q.2)


/-! ## Theorems -/

/-- C5: the inferred tense is "future" if the lowercased token set contains
"will" or intersects the future-marker set; otherwise "past" if any tag is
VBD or the token set intersects the past-marker set; otherwise "present";
in particular a future marker together with any past indicator still
yields "future". -/
theorem detectTense_characterization (posTags : List (String × String))
    (tokens : List String) :
    (detectTense posTags tokens =
      if "will" ∈ tokens.map pyLower ∨
          (∃ t ∈ tokens.map pyLower, t ∈ FUTURE_MARKERS) then "future"
      else if ("VBD" ∈ posTags.map Prod.snd) ∨
          (∃ t ∈ tokens.map pyLower, t ∈ PAST_MARKERS) then "past"
      else "present") ∧
    ((∃ t ∈ tokens.map pyLower, t ∈ FUTURE_MARKERS) →
      (("VBD" ∈ posTags.map Prod.snd) ∨
        (∃ t ∈ tokens.map pyLower, t ∈ PAST_MARKERS)) →
      detectTense posTags tokens = "future") := by
  have hmain : detectTense posTags tokens =
      if "will" ∈ tokens.map pyLower ∨
          (∃ t ∈ tokens.map pyLower, t ∈ FUTURE_MARKERS) then "future"
      else if ("VBD" ∈ posTags.map Prod.snd) ∨
          (∃ t ∈ tokens.map pyLower, t ∈ PAST_MARKERS) then "past"
      else "present" := by
    simp only [detectTense, List.contains, ← List.elem_iff, List.any_eq_true,
      Bool.or_eq_true, decide_eq_true_eq, beq_iff_eq, List.mem_map]
    split_ifs <;> simp_all <;> tauto
  refine ⟨hmain, fun hfut _ => ?_⟩
  rw [hmain, if_pos (Or.inr hfut)]

/-- Witness for the tense characterization at a sentence holding both a
future marker and a VBD tag. -/
theorem detectTense_characterization_witness :
    detectTense [("went", "VBD")] ["will", "went"] = "future" :=
  (detectTense_characterization [("went", "VBD")] ["will", "went"]).2
    (by decide) (by decide)

/-- C2: on a parsed-sentence record with a truthy subject and verb, tense
"past" and a VBZ tag force a tense_mismatch issue in the checker's output;
a falsy subject or verb short-circuits to an empty result. -/
theorem grammarCheck_tense_mismatch (sd : GSentence) :
    (truthyStr sd.subject = true → truthyStr sd.main_verb = true →
      sd.tense = some "past" → "VBZ" ∈ sd.pos_tags.map Prod.snd →
      ∃ r ∈ grammarCheck sd, r.type = some "tense_mismatch") ∧
    ((truthyStr sd.subject = false ∨ truthyStr sd.main_verb = false) →
      grammarCheck sd = []) := by
  constructor
  · intro hs hv ht htag
    have htm : tenseMismatch sd.tense sd.pos_tags = true := by
      rcases List.mem_map.1 htag with ⟨p, hp, hpe⟩
      simp only [tenseMismatch, List.any_eq_true]
      exact ⟨p, hp, by simp [ht, hpe]⟩
    refine ⟨mkGrammarIssue "tense_mismatch"
      "Possible tense inconsistency in sentence." sd.sentence_id, ?_, rfl⟩
    simp [grammarCheck, hs, hv, htm, List.mem_append]
  · intro h
    rcases h with h | h <;> simp [grammarCheck, h]

/-- Witness for the grammar checker claim at a concrete past-tense
sentence with a VBZ tag, and at a record with no subject. -/
theorem grammarCheck_tense_mismatch_witness :
    (∃ r ∈ grammarCheck
      ({ subject := some "he", main_verb := some "goes",
         tense := some "past",
         pos_tags := [("he", "PRP"), ("goes", "VBZ")],
         sentence_id := some 0 }), r.type = some "tense_mismatch") ∧
    grammarCheck
      ({ subject := none, main_verb := some "goes",
         tense := some "past", pos_tags := [("goes", "VBZ")],
         sentence_id := some 0 }) = [] :=
  ⟨(grammarCheck_tense_mismatch _).1 (by decide) (by decide) rfl (by decide),
   (grammarCheck_tense_mismatch _).2 (Or.inl (by decide))⟩

/-- C6: a processed spelling error carries severity "medium" and
issue_type "spelling"; its type field becomes "suggestion" exactly when a
confidence entry exists for its word and is below 0.7, and otherwise the
type field is left as it was (in particular a word with no confidence
entry is never downgraded). -/
theorem processSpellError_spec (e : PyRec) (ws : String)
    (conf : List (String × ℚ)) :
    (processSpellError e ws conf).severity = some "medium" ∧
    (processSpellError e ws conf).issue_type = some "spelling" ∧
    ((∃ w c, getWordField e = some w ∧ List.lookup w conf = some c ∧
        c < 7 / 10) →
      (processSpellError e ws conf).type = some "suggestion") ∧
    ((¬ ∃ w c, getWordField e = some w ∧ List.lookup w conf = some c ∧
        c < 7 / 10) →
      (processSpellError e ws conf).type = e.type) := by
  have hsev : severityClassify "spelling" = "medium" := by decide
  refine ⟨?_, ?_, ?_, ?_⟩
  · cases hw : getWordField e <;> simp [processSpellError, hw, hsev]
  · cases hw : getWordField e <;> simp [processSpellError, hw, hsev]
  · rintro ⟨w, c, hw, hc, hlt⟩
    simp [processSpellError, hw, hc, hlt]
  · intro hnot
    cases hw : getWordField e
    · simp [processSpellError, hw]
    · rename_i w
      cases hc : List.lookup w conf
      · have : ¬ ((1 : ℚ) < 7 / 10) := by norm_num
        simp [processSpellError, hw, hc, this]
      · rename_i c
        have hge : ¬ c < 7 / 10 := fun hlt => hnot ⟨w, c, hw, hc, hlt⟩
        simp [processSpellError, hw, hc, hge]

/-- Witness for the spelling-error processing claim: a word with a low
confidence entry is downgraded to a suggestion, a word with no confidence
entry keeps its type. -/
theorem processSpellError_spec_witness :
    (processSpellError { word := some "teh" } "neutral"
      [("teh", 0)]).type = some "suggestion" ∧
    (processSpellError { word := some "teh" } "neutral" []).type = none :=
  ⟨(processSpellError_spec { word := some "teh" } "neutral"
      [("teh", 0)]).2.2.1 ⟨"teh", 0, rfl, rfl, by norm_num⟩,
   (processSpellError_spec { word := some "teh" } "neutral" []).2.2.2
      (by rintro ⟨w, c, _, hc, _⟩; simp at hc)⟩

/-- C9: normalize_word always returns the word itself among its candidate
forms, so the spell checker's acceptance rule (accept when any normalized
form is in the dictionary) never rejects a word that is itself a
dictionary member. -/
theorem normalizeWord_contains_self (w : String) :
    w ∈ normalizeWord w ∧
    ∀ dict : List String, w ∈ dict →
      (normalizeWord w).any (fun f => dict.contains f) = true := by
  have hself : w ∈ normalizeWord w := by
    unfold normalizeWord
    iterate 6 apply List.mem_append_left
    exact List.mem_singleton_self w
  refine ⟨hself, fun dict hdict => ?_⟩
  simp only [List.any_eq_true]
  exact ⟨w, hself, List.elem_iff.mpr hdict⟩

/-- Witness for the normalizer claim at a concrete word and dictionary. -/
theorem normalizeWord_contains_self_witness :
    "cat" ∈ normalizeWord "cat" ∧
    (normalizeWord "cat").any (fun f => ["cat", "dog"].contains f) = true :=
  ⟨(normalizeWord_contains_self "cat").1,
   (normalizeWord_contains_self "cat").2 ["cat", "dog"] (by decide)⟩

/-- C8: validation rejects exactly the texts whose stripped form is empty,
shorter than MIN_CHAR_COUNT, has fewer than MIN_WORD_COUNT words, is
purely numeric, or has an alphabetic-character ratio below one half; the
five causes carry pairwise distinct messages, and an invalid input makes
predict_text_quality return an error result without running the rest of
the pipeline. -/
theorem validateInputText_spec (text : String) :
    ((validateInputText text).is_valid = false ↔
      ((pyStrip text).data.isEmpty = true ∨
        (pyStrip text).length < MIN_CHAR_COUNT ∨
        (pySplit (pyStrip text)).length < MIN_WORD_COUNT ∨
        pyIsNumeric (pyStrip text) = true ∨
        2 * alphaCount (pyStrip text) < (pyStrip text).length)) ∧
    List.Pairwise (fun a b => a ≠ b)
      [msgEmpty, msgShort, msgWords, msgNumbers, msgAlpha] ∧
    (∀ rest : String → PredictResult,
      (validateInputText text).is_valid = false →
      predictTextQuality text rest =
        { error := true, message := (validateInputText text).message }) := by
  refine ⟨?_, by decide, fun rest h => ?_⟩
  · simp only [validateInputText]
    split_ifs with h1 h2 h3 h4 h5 <;> simp_all
  · simp [predictTextQuality, h]

/-- Witness for the validation claim: a too-short input is rejected and
the pipeline result is the error record. -/
theorem validateInputText_spec_witness :
    predictTextQuality "hi" (fun _ => { error := false, message := "ran" }) =
      { error := true, message := msgShort } :=
  (validateInputText_spec "hi").2.2
    (fun _ => { error := false, message := "ran" }) (by decide)

/-- A processed spelling error always has its issue_type key set, so the
record is truthy (the Python `if issue:` test always passes). -/
theorem recTruthy_processSpellError (e : PyRec) (ws : String)
    (conf : List (String × ℚ)) :
    recTruthy (processSpellError e ws conf) = true := by
  cases hw : getWordField e <;> simp [processSpellError, hw, recTruthy]

/-- Pass 1 of fuse appends exactly the processed spelling errors in input
order. -/
theorem fusePass1_eq (ws : String) (conf : List (String × ℚ)) :
    ∀ spell acc, fusePass1 ws conf spell acc =
      acc ++ spell.map (fun e => processSpellError e ws conf) := by
  intro spell
  induction spell with
  | nil => intro acc; simp [fusePass1]
  | cons e rest ih =>
    intro acc
    simp [fusePass1, recTruthy_processSpellError, ih]

/-- Pass 2 of fuse appends the style issues in sentence order and records
exactly the marked sentence ids. -/
theorem fusePass2_eq (ws : String) :
    ∀ sentences i acc marked, fusePass2 ws sentences i acc marked =
      (acc ++ styleIssuesFrom ws sentences i,
       marked ++ markedFrom ws sentences i) := by
  intro sentences
  induction sentences with
  | nil => intro i acc marked; simp [fusePass2, styleIssuesFrom, markedFrom]
  | cons s rest ih =>
    intro i acc marked
    by_cases h : (detectContractionStyleIssue s i ws).isEmpty
    · have hnil : detectContractionStyleIssue s i ws = [] :=
        List.isEmpty_iff.1 h
      simp [fusePass2, styleIssuesFrom, markedFrom, h, hnil, ih]
    · simp [fusePass2, styleIssuesFrom, markedFrom, h, ih]

/-- Pass 3 of fuse appends exactly the non-suppressed grammar issues in
input order. -/
theorem fusePass3_eq (ws : String) (marked : List Nat) :
    ∀ grammar acc, fusePass3 ws marked grammar acc =
      acc ++ grammar.filter (fun g => !grammarSuppressed ws marked g) := by
  intro grammar
  induction grammar with
  | nil => intro acc; simp [fusePass3]
  | cons g rest ih =>
    intro acc
    by_cases h : grammarSuppressed ws marked g <;> simp [fusePass3, h, ih]

/-- Decomposition of fuse into its three independent parts. -/
theorem fuse_eq_parts (spell grammar : List PyRec) (sentences : List String)
    (ws : String) (conf : List (String × ℚ)) :
    fuse spell grammar sentences ws conf =
      spell.map (fun e => processSpellError e ws conf) ++
      styleIssuesFrom ws sentences 0 ++
      grammarSurvivors grammar sentences ws := by
  simp [fuse, fusePass1_eq, fusePass2_eq, fusePass3_eq, grammarSurvivors,
    List.append_assoc]

/-- Every issue produced by the contraction loop carries the sentence id
it was called with. -/
theorem contractionIssues_sid (sid : Nat) :
    ∀ toks r, r ∈ contractionIssues sid toks → r.sentence_id = some sid := by
  intro toks
  induction toks with
  | nil => intro r hr; simp [contractionIssues] at hr
  | cons t rest ih =>
    intro r hr
    by_cases h : t ∈ CONTRACTIONS
    · simp [contractionIssues, h] at hr
      rcases hr with hr | hr
      · simp [hr, mkStyleIssue]
      · exact ih r hr
    · simp [contractionIssues, h] at hr
      exact ih r hr

/-- Every style issue of a sentence carries that sentence's id. -/
theorem detectContraction_sid (s : String) (sid : Nat) (ws : String)
    (r : PyRec) (hr : r ∈ detectContractionStyleIssue s sid ws) :
    r.sentence_id = some sid := by
  by_cases h : ws != "formal"
  · simp [detectContractionStyleIssue, h] at hr
  · simp only [detectContractionStyleIssue, h, if_neg, Bool.false_eq_true,
      ite_false] at hr
    exact contractionIssues_sid sid _ r hr

/-- Style issues from index `i` onward carry sentence ids at least `i`. -/
theorem styleIssuesFrom_sid (ws : String) :
    ∀ sentences i r, r ∈ styleIssuesFrom ws sentences i →
      ∃ j, r.sentence_id = some j ∧ i ≤ j := by
  intro sentences
  induction sentences with
  | nil => intro i r hr; simp [styleIssuesFrom] at hr
  | cons s rest ih =>
    intro i r hr
    simp only [styleIssuesFrom, List.mem_append] at hr
    rcases hr with hr | hr
    · exact ⟨i, detectContraction_sid s i ws r hr, le_refl i⟩
    · obtain ⟨j, hj, hij⟩ := ih (i + 1) r hr
      exact ⟨j, hj, Nat.le_of_succ_le hij⟩

/-- A list of naturals all equal to one value is pairwise increasing. -/
theorem pairwise_le_of_all_eq (i : Nat) :
    ∀ l : List Nat, (∀ a ∈ l, a = i) → l.Pairwise (fun a b => a ≤ b) := by
  intro l
  induction l with
  | nil => intro _; exact List.Pairwise.nil
  | cons a rest ih =>
    intro h
    refine List.Pairwise.cons (fun b hb => ?_) (ih fun b hb => h b (by simp [hb]))
    rw [h a (by simp), h b (by simp [hb])]

/-- Sentence ids of the style issues are ascending. -/
theorem styleIssuesFrom_pairwise (ws : String) :
    ∀ sentences i, ((styleIssuesFrom ws sentences i).filterMap
      (fun r => r.sentence_id)).Pairwise (fun a b => a ≤ b) := by
  intro sentences
  induction sentences with
  | nil => intro i; simp [styleIssuesFrom]
  | cons s rest ih =>
    intro i
    simp only [styleIssuesFrom, List.filterMap_append]
    rw [List.pairwise_append]
    refine ⟨?_, ih (i + 1), ?_⟩
    · refine pairwise_le_of_all_eq i _ (fun a ha => ?_)
      obtain ⟨r, hr, hra⟩ := List.mem_filterMap.1 ha
      have := detectContraction_sid s i ws r hr
      rw [this] at hra
      exact (Option.some_inj.1 hra).symm
    · intro a ha b hb
      obtain ⟨r, hr, hra⟩ := List.mem_filterMap.1 ha
      have hai := detectContraction_sid s i ws r hr
      rw [hai] at hra
      obtain ⟨r2, hr2, hrb⟩ := List.mem_filterMap.1 hb
      obtain ⟨j, hj, hij⟩ := styleIssuesFrom_sid ws rest (i + 1) r2 hr2
      rw [hj] at hrb
      have ha' : a = i := (Option.some_inj.1 hra).symm
      have hb' : b = j := (Option.some_inj.1 hrb).symm
      omega

/-- C7: the fused output is the surviving spelling issues in input order,
then the style issues in ascending sentence order, then the surviving
grammar issues in input order, with no interleaving or re-sorting. -/
theorem fuse_ordering (spell grammar : List PyRec) (sentences : List String)
    (ws : String) (conf : List (String × ℚ)) :
    fuse spell grammar sentences ws conf =
      spell.map (fun e => processSpellError e ws conf) ++
      styleIssuesFrom ws sentences 0 ++
      grammarSurvivors grammar sentences ws ∧
    ((styleIssuesFrom ws sentences 0).filterMap
      (fun r => r.sentence_id)).Pairwise (fun a b => a ≤ b) :=
  ⟨fuse_eq_parts spell grammar sentences ws conf,
   styleIssuesFrom_pairwise ws sentences 0⟩

/-- A token of the sentence that is in the contraction set yields its
style issue in the loop's output. -/
theorem contractionIssues_mem (sid : Nat) :
    ∀ toks t, t ∈ toks → t ∈ CONTRACTIONS →
      mkStyleIssue sid t ∈ contractionIssues sid toks := by
  intro toks
  induction toks with
  | nil => intro t ht _; simp at ht
  | cons u rest ih =>
    intro t ht hc
    rcases List.mem_cons.1 ht with ht | ht
    · subst ht
      simp [contractionIssues, hc]
    · by_cases hu : u ∈ CONTRACTIONS <;>
        simp [contractionIssues, hu, ih t ht hc]

/-- Style issues of the sentence at index `k` appear in the style pass
output started at index `i`. -/
theorem styleIssuesFrom_get (ws : String) :
    ∀ (sentences : List String) (k i : Nat) (s : String) (r : PyRec),
      sentences[k]? = some s →
      r ∈ detectContractionStyleIssue s (i + k) ws →
      r ∈ styleIssuesFrom ws sentences i := by
  intro sentences
  induction sentences with
  | nil => intro k i s r hk _; simp at hk
  | cons x rest ih =>
    intro k i s r hk hr
    match k with
    | 0 =>
      simp only [List.getElem?_cons_zero, Option.some_inj] at hk
      subst hk
      simp only [styleIssuesFrom, List.mem_append]
      exact Or.inl (by simpa using hr)
    | k + 1 =>
      simp only [List.getElem?_cons_succ] at hk
      simp only [styleIssuesFrom, List.mem_append]
      refine Or.inr (ih k (i + 1) s r hk ?_)
      have : i + 1 + k = i + (k + 1) := by omega
      rw [this]
      exact hr

/-- A sentence with a nonempty style-issue list is marked. -/
theorem markedFrom_mem (ws : String) :
    ∀ (sentences : List String) (k i : Nat) (s : String),
      sentences[k]? = some s →
      (detectContractionStyleIssue s (i + k) ws).isEmpty = false →
      (i + k) ∈ markedFrom ws sentences i := by
  intro sentences
  induction sentences with
  | nil => intro k i s hk _; simp at hk
  | cons x rest ih =>
    intro k i s hk hne
    match k with
    | 0 =>
      simp only [List.getElem?_cons_zero, Option.some_inj] at hk
      subst hk
      simp only [markedFrom]
      rw [Nat.add_zero] at hne ⊢
      simp [hne]
    | k + 1 =>
      simp only [List.getElem?_cons_succ] at hk
      have harr : i + 1 + k = i + (k + 1) := by omega
      have hmem : (i + 1 + k) ∈ markedFrom ws rest (i + 1) :=
        ih k (i + 1) s hk (by rw [harr]; exact hne)
      simp only [markedFrom]
      rw [← harr]
      split <;> simp [hmem]

/-- C1 (amended): with writing_style "formal" and a sentence whose
lowercased whitespace tokens include the apostrophe-free form "dont"
(which is what the fixed contraction set holds), the fused output contains
a style issue for that sentence and every grammar issue carrying that
sentence id is suppressed. -/
theorem fuse_formal_dont (spell grammar : List PyRec)
    (sentences : List String) (conf : List (String × ℚ)) (k : Nat)
    (s : String) (hk : sentences[k]? = some s)
    (hd : "dont" ∈ pySplit (pyLower s)) :
    (∃ r ∈ fuse spell grammar sentences "formal" conf,
        r.type = some "style" ∧ r.sentence_id = some k) ∧
    ∀ g ∈ grammar, g.sentence_id = some k →
      g ∉ grammarSurvivors grammar sentences "formal" := by
  have hdc : "dont" ∈ CONTRACTIONS := by decide
  have hdet : mkStyleIssue k "dont" ∈ detectContractionStyleIssue s k "formal" := by
    simp only [detectContractionStyleIssue]
    rw [if_neg (by simp)]
    exact contractionIssues_mem k _ "dont" hd hdc
  have hstyle : mkStyleIssue k "dont" ∈ styleIssuesFrom "formal" sentences 0 :=
    styleIssuesFrom_get "formal" sentences k 0 s _ hk
      (by rw [Nat.zero_add]; exact hdet)
  constructor
  · refine ⟨mkStyleIssue k "dont", ?_, rfl, rfl⟩
    rw [fuse_eq_parts]
    exact List.mem_append_left _ (List.mem_append_right _ hstyle)
  · intro g hg hid hmemg
    have hne : (detectContractionStyleIssue s k "formal").isEmpty = false := by
      cases he : detectContractionStyleIssue s k "formal" with
      | nil => rw [he] at hdet; simp at hdet
      | cons a l => simp
    have hmark : k ∈ markedFrom "formal" sentences 0 := by
      have := markedFrom_mem "formal" sentences k 0 s hk
        (by rw [Nat.zero_add]; exact hne)
      rwa [Nat.zero_add] at this
    have hpred := (List.mem_filter.1 hmemg).2
    rw [grammarSuppressed, hid] at hpred
    simp at hpred
    exact hpred hmark

/-- Grammar issue used in the concrete fusion scenarios. -/
def c1Grammar : PyRec :=
  { type := some "tense_mismatch",
    message := some "Possible tense inconsistency in sentence.",
    suggestion := some (grammarSuggestion "tense_mismatch"),
    sentence_id := some 0 }

/-- Sentence holding the literal apostrophe contraction. -/
def c1Sentence : String := "I don" ++ aposS ++ "t know"

/-- Sentence holding the apostrophe-free contraction form. -/
def c1SentencePlain : String := "I dont know"

/-- C1 (counterexample): with writing_style "formal" and a sentence whose
tokens include the literal apostrophe form of the contraction, fusion
emits no style issue at all and the grammar issue for that sentence id
survives, because the fixed contraction set only holds apostrophe-free
forms. -/
theorem fuse_formal_apostrophe_counterexample :
    ("don" ++ aposS ++ "t") ∈ pySplit (pyLower c1Sentence) ∧
    fuse [] [c1Grammar] [c1Sentence] "formal" [] = [c1Grammar] ∧
    (fuse [] [c1Grammar] [c1Sentence] "formal" []).countP
      (fun r => r.type == some "style") = 0 ∧
    c1Grammar ∈ fuse [] [c1Grammar] [c1Sentence] "formal" [] := by
  decide

/-- Witness for the amended fusion claim at a concrete sentence written
without the apostrophe. -/
theorem fuse_formal_dont_witness :
    (∃ r ∈ fuse [] [c1Grammar] [c1SentencePlain] "formal" [],
        r.type = some "style" ∧ r.sentence_id = some 0) ∧
    c1Grammar ∉ grammarSurvivors [c1Grammar] [c1SentencePlain] "formal" := by
  have h := fuse_formal_dont [] [c1Grammar] [c1SentencePlain] [] 0
    c1SentencePlain rfl (by decide)
  exact ⟨h.1, h.2 c1Grammar (List.mem_singleton_self _) rfl⟩

/-- A heap update leaves every other address unchanged. -/
theorem heapUpdate_get_ne (st : List PyRec) (a : Nat) (f : PyRec → PyRec)
    (b : Nat) (hb : b ≠ a) : (heapUpdate st a f)[b]? = st[b]? := by
  unfold heapUpdate
  cases h : st[a]? with
  | none => simp [h]
  | some r => simp only [h]; simp [List.getElem?_set_ne (fun he => hb he.symm)]

/-- A heap update preserves the heap length. -/
theorem heapUpdate_length (st : List PyRec) (a : Nat) (f : PyRec → PyRec) :
    (heapUpdate st a f).length = st.length := by
  unfold heapUpdate
  cases h : st[a]? with
  | none => simp [h]
  | some r => simp only [h]; simp

/-- _process_spell_error only writes to the freshly allocated copy: every
address already on the heap is unchanged, and the heap only grows. -/
theorem processSpellErrorHeap_frame (st : List PyRec) (a : Nat) (ws : String)
    (conf : List (String × ℚ)) (b : Nat) (hb : b < st.length) :
    ((processSpellErrorHeap st a ws conf).1)[b]? = st[b]? ∧
    st.length ≤ ((processSpellErrorHeap st a ws conf).1).length := by
  have hbne : b ≠ st.length := Nat.ne_of_lt hb
  have happ : (st ++ [((st[a]?).getD default)])[b]? = st[b]? := by
    rw [List.getElem?_append, if_pos hb]
  have happlen : (st ++ [((st[a]?).getD default)]).length = st.length + 1 := by
    simp
  unfold processSpellErrorHeap
  cases hw : getWordField ((st[a]?).getD default) with
  | none =>
    simp only [hw]
    constructor
    · rw [heapUpdate_get_ne _ _ _ _ hbne, heapUpdate_get_ne _ _ _ _ hbne, happ]
    · rw [heapUpdate_length, heapUpdate_length, happlen]
      omega
  | some w =>
    simp only [hw]
    by_cases hc : ((List.lookup w conf).getD 1 : ℚ) < 7 / 10
    · simp only [hc, if_pos]
      constructor
      · rw [heapUpdate_get_ne _ _ _ _ hbne, heapUpdate_get_ne _ _ _ _ hbne,
          heapUpdate_get_ne _ _ _ _ hbne, happ]
      · rw [heapUpdate_length, heapUpdate_length, heapUpdate_length, happlen]
        omega
    · simp only [hc, if_neg, ite_false]
      constructor
      · rw [heapUpdate_get_ne _ _ _ _ hbne, heapUpdate_get_ne _ _ _ _ hbne,
          happ]
      · rw [heapUpdate_length, heapUpdate_length, happlen]
        omega

/-- C10: the spelling pass of fusion never mutates its input records:
after processing any list of spelling-error addresses, every record
already on the heap is exactly as it was (all severity, issue_type and
type annotations land on fresh copies). -/
theorem fuseSpellPassHeap_frame (st : List PyRec) (addrs : List Nat)
    (ws : String) (conf : List (String × ℚ)) (b : Nat)
    (hb : b < st.length) :
    ((fuseSpellPassHeap st addrs ws conf).1)[b]? = st[b]? := by
  induction addrs generalizing st with
  | nil => simp [fuseSpellPassHeap]
  | cons a rest ih =>
    have hframe := processSpellErrorHeap_frame st a ws conf b hb
    have hlt : b < ((processSpellErrorHeap st a ws conf).1).length :=
      Nat.lt_of_lt_of_le hb hframe.2
    simp only [fuseSpellPassHeap]
    rw [ih _ hlt, hframe.1]

/-- Witness for the no-mutation claim on a concrete one-record heap. -/
theorem fuseSpellPassHeap_frame_witness :
    ((fuseSpellPassHeap [{ word := some "teh" }] [0] "neutral" []).1)[0]? =
      [({ word := some "teh" } : PyRec)][0]? :=
  fuseSpellPassHeap_frame [{ word := some "teh" }] [0] "neutral" [] 0
    (by decide)

/-- Membership in an insertion is membership in the parts. -/
theorem mem_insertSorted {α : Type} (le : α → α → Bool) (x a : α) :
    ∀ l : List α, a ∈ insertSorted le x l ↔ a = x ∨ a ∈ l := by
  intro l
  induction l with
  | nil => simp [insertSorted]
  | cons y rest ih =>
    by_cases h : le x y
    · simp [insertSorted, h]
    · simp [insertSorted, h, ih]
      tauto

/-- Insertion sort preserves membership. -/
theorem mem_sortByRel {α : Type} (le : α → α → Bool) (a : α) :
    ∀ l : List α, a ∈ sortByRel le l ↔ a ∈ l := by
  intro l
  induction l with
  | nil => simp [sortByRel]
  | cons x rest ih => simp [sortByRel, mem_insertSorted, ih]

/-- The close-match list never exceeds the requested bound. -/
theorem getCloseMatches_length (sim : String → String → ℚ) (word : String)
    (poss : List String) (n : Nat) (cutoff : ℚ) :
    (getCloseMatches sim word poss n cutoff).length ≤ n := by
  simp only [getCloseMatches, List.length_map, List.length_take]
  exact min_le_left _ _

/-- Every close match is one of the possibilities and scores at least the
cutoff. -/
theorem getCloseMatches_mem (sim : String → String → ℚ) (word : String)
    (poss : List String) (n : Nat) (cutoff : ℚ) (x : String)
    (hx : x ∈ getCloseMatches sim word poss n cutoff) :
    x ∈ poss ∧ cutoff ≤ sim x word := by
  simp only [getCloseMatches] at hx
  obtain ⟨p, hp, hps⟩ := List.mem_map.1 hx
  have hp2 : p ∈ sortByRel tupleGE ((poss.filter
      (fun y => decide (cutoff ≤ sim y word))).map
      (fun y => (sim y word, y))) := List.mem_of_mem_take hp
  rw [mem_sortByRel] at hp2
  obtain ⟨y, hy, hyp⟩ := List.mem_map.1 hp2
  obtain ⟨hymem, hydec⟩ := List.mem_filter.1 hy
  have hxy : x = y := by rw [← hps, ← hyp]
  subst hxy
  exact ⟨hymem, of_decide_eq_true hydec⟩

/-- Invariant of the word scanner: provided the accumulator holds a
nonempty run ending exactly at the scan position, every emitted match is a
nonempty token lying inside the scanned region. -/
theorem findWordsAux_spec :
    ∀ (cs : List Char) (i : Nat) (acc : Option (Nat × List Char)),
      (∀ s0 run, acc = some (s0, run) → run ≠ [] ∧ s0 + run.length = i) →
      ∀ s w, (s, w) ∈ findWordsAux cs i acc →
        w ≠ [] ∧ s + w.length ≤ i + cs.length := by
  intro cs
  induction cs with
  | nil =>
    intro i acc hacc s w hm
    match acc with
    | none => simp [findWordsAux] at hm
    | some (s0, run) =>
      simp only [findWordsAux, List.mem_singleton, Prod.mk.injEq] at hm
      obtain ⟨hs, hw⟩ := hm
      obtain ⟨hrun, hlen⟩ := hacc s0 run rfl
      subst hs hw
      constructor
      · simpa using hrun
      · simp only [List.length_reverse, List.length_nil]
        omega
  | cons c rest ih =>
    intro i acc hacc s w hm
    match acc with
    | none =>
      by_cases hc : isWordChar c
      · simp only [findWordsAux, hc, if_true] at hm
        have h := ih (i + 1) (some (i, [c]))
          (by intro s0 run hh; injection hh with hh; injection hh with h1 h2;
              subst h1; subst h2; exact ⟨by simp, by simp⟩) s w hm
        refine ⟨h.1, ?_⟩
        have h2 := h.2
        simp only [List.length_cons]
        omega
      · simp only [findWordsAux, hc, if_false, Bool.false_eq_true] at hm
        have h := ih (i + 1) none (by intro s0 run hh; cases hh) s w hm
        refine ⟨h.1, ?_⟩
        have h2 := h.2
        simp only [List.length_cons]
        omega
    | some (s0, run) =>
      obtain ⟨hrun, hlen⟩ := hacc s0 run rfl
      by_cases hc : isWordChar c
      · simp only [findWordsAux, hc, if_true] at hm
        have h := ih (i + 1) (some (s0, c :: run))
          (by intro s1 run1 hh; injection hh with hh; injection hh with h1 h2;
              subst h1; subst h2;
              exact ⟨by simp, by simp only [List.length_cons]; omega⟩) s w hm
        refine ⟨h.1, ?_⟩
        have h2 := h.2
        simp only [List.length_cons]
        omega
      · simp only [findWordsAux, hc, if_false, Bool.false_eq_true,
          List.mem_cons, Prod.mk.injEq] at hm
        rcases hm with ⟨hs, hw⟩ | hm
        · subst hs hw
          refine ⟨by simpa using hrun, ?_⟩
          simp only [List.length_reverse, List.length_cons]
          omega
        · have h := ih (i + 1) none (by intro s0 run hh; cases hh) s w hm
          refine ⟨h.1, ?_⟩
          have h2 := h.2
          simp only [List.length_cons]
          omega

/-- Every scanned word is nonempty and ends within the text. -/
theorem findWords_spec (cs : List Char) (s : Nat) (w : List Char)
    (hm : (s, w) ∈ findWords cs) : w ≠ [] ∧ s + w.length ≤ cs.length := by
  have := findWordsAux_spec cs 0 none (by intro s0 run h; cases h) s w hm
  simpa using this

/-- Every record emitted by the spell-check loop is the issue of one of
the scanned words. -/
theorem checkSpellingGo_shape (dict : List String)
    (sim : String → String → ℚ) (text : String) :
    ∀ (ws : List (Nat × List Char)) (nid : Nat) (r : PyRec),
      r ∈ checkSpellingGo dict sim text ws nid →
      ∃ s w n, (s, w) ∈ ws ∧ r = mkSpellIssue dict sim text n s w := by
  intro ws
  induction ws with
  | nil => intro nid r hr; simp [checkSpellingGo] at hr
  | cons p rest ih =>
    intro nid r hr
    obtain ⟨s, w⟩ := p
    simp only [checkSpellingGo] at hr
    split at hr
    · obtain ⟨s1, w1, n1, hmem, hre⟩ := ih nid r hr
      exact ⟨s1, w1, n1, List.mem_cons_of_mem _ hmem, hre⟩
    · split at hr
      · obtain ⟨s1, w1, n1, hmem, hre⟩ := ih nid r hr
        exact ⟨s1, w1, n1, List.mem_cons_of_mem _ hmem, hre⟩
      · split at hr
        · obtain ⟨s1, w1, n1, hmem, hre⟩ := ih nid r hr
          exact ⟨s1, w1, n1, List.mem_cons_of_mem _ hmem, hre⟩
        · rcases List.mem_cons.1 hr with hre | hr
          · exact ⟨s, w, nid, List.mem_cons_self _ _, hre⟩
          · obtain ⟨s1, w1, n1, hmem, hre⟩ := ih (nid + 1) r hr
            exact ⟨s1, w1, n1, List.mem_cons_of_mem _ hmem, hre⟩

/-- Issue ids of the spell-check loop are consecutive from the starting
id. -/
theorem checkSpellingGo_ids (dict : List String)
    (sim : String → String → ℚ) (text : String) :
    ∀ (ws : List (Nat × List Char)) (nid : Nat),
      (checkSpellingGo dict sim text ws nid).map (fun r => r.issue_id) =
        (List.range' nid
          (checkSpellingGo dict sim text ws nid).length).map some := by
  intro ws
  induction ws with
  | nil => intro nid; simp [checkSpellingGo]
  | cons p rest ih =>
    intro nid
    obtain ⟨s, w⟩ := p
    simp only [checkSpellingGo]
    split
    · exact ih nid
    · split
      · exact ih nid
      · split
        · exact ih nid
        · simp only [List.map_cons, List.length_cons, List.range'_succ,
            ih (nid + 1), mkSpellIssue]

/-- Every member of `range' s n` is at least `s`. -/
theorem range'_le_of_mem :
    ∀ (n s b : Nat), b ∈ List.range' s n → s ≤ b := by
  intro n
  induction n with
  | zero => intro s b hb; simp at hb
  | succ n ih =>
    intro s b hb
    rw [List.range'_succ] at hb
    rcases List.mem_cons.1 hb with h | h
    · omega
    · have := ih (s + 1) b h
      omega

/-- Consecutive ranges are strictly increasing. -/
theorem range'_pairwise_lt (n : Nat) :
    ∀ s : Nat, (List.range' s n).Pairwise (fun a b => a < b) := by
  induction n with
  | zero => intro s; simp
  | succ n ih =>
    intro s
    rw [List.range'_succ]
    refine List.Pairwise.cons (fun b hb => ?_) (ih (s + 1))
    have := range'_le_of_mem n (s + 1) b hb
    omega

/-- A list mapping pointwise to `some` of another list filter-maps to that
list. -/
theorem filterMap_of_map_some {α β : Type} (f : α → Option β) :
    ∀ (l : List α) (R : List β), l.map f = R.map some →
      l.filterMap f = R := by
  intro l
  induction l with
  | nil =>
    intro R h
    cases R with
    | nil => rfl
    | cons b R' => simp at h
  | cons a l ih =>
    intro R h
    cases R with
    | nil => simp at h
    | cons b R' =>
      simp only [List.map_cons, List.cons.injEq] at h
      rw [List.filterMap_cons, h.1, ih R' h.2]

/-- C4: spell-check issue ids are assigned sequentially from 1 in scan
order (hence strictly increasing), every issue's offsets satisfy
start < end and end at most the text length (starts are naturals, so
0 ≤ start holds by type), and fusion carries the id and offsets of a
spelling record through unchanged. -/
theorem checkSpelling_ids_offsets (dict : List String)
    (sim : String → String → ℚ) (text : String) :
    ((checkSpelling dict sim text).map (fun r => r.issue_id) =
      (List.range' 1 (checkSpelling dict sim text).length).map some) ∧
    ((checkSpelling dict sim text).filterMap
      (fun r => r.issue_id)).Pairwise (fun a b => a < b) ∧
    (∀ r ∈ checkSpelling dict sim text, ∃ s e, r.start_index = some s ∧
      r.end_index = some e ∧ s < e ∧ e ≤ text.length) ∧
    (∀ (e : PyRec) (ws : String) (conf : List (String × ℚ)),
      (processSpellError e ws conf).issue_id = e.issue_id ∧
      (processSpellError e ws conf).start_index = e.start_index ∧
      (processSpellError e ws conf).end_index = e.end_index) := by
  have hids := checkSpellingGo_ids dict sim text (findWords text.data) 1
  refine ⟨hids, ?_, ?_, ?_⟩
  · show (List.filterMap (fun r => r.issue_id)
      (checkSpellingGo dict sim text (findWords text.data) 1)).Pairwise
      (fun a b => a < b)
    rw [filterMap_of_map_some _ _ _ hids]
    exact range'_pairwise_lt _ 1
  · intro r hr
    obtain ⟨s, w, n, hmem, hre⟩ :=
      checkSpellingGo_shape dict sim text (findWords text.data) 1 r hr
    obtain ⟨hw, hbound⟩ := findWords_spec text.data s w hmem
    refine ⟨s, s + w.length, by simp [hre, mkSpellIssue],
      by simp [hre, mkSpellIssue], ?_, ?_⟩
    · have : w.length ≠ 0 := fun h => hw (List.length_eq_zero.1 h)
      omega
    · exact hbound
  · intro e ws conf
    cases hw : getWordField e <;>
      simp [processSpellError, hw] <;> split <;> simp

/-- C3: every spell issue's suggestion list has length at most 5, every
suggestion is a dictionary member, and no suggestion scores below the 0.8
similarity floor against the flagged (lowercased) word. -/
theorem checkSpelling_suggestions (dict : List String)
    (sim : String → String → ℚ) (text : String) (r : PyRec)
    (hr : r ∈ checkSpelling dict sim text) :
    ∃ sgs ew, r.suggestions = some sgs ∧ r.error_word = some ew ∧
      sgs.length ≤ 5 ∧
      ∀ x ∈ sgs, x ∈ dict ∧ 4 / 5 ≤ sim x (pyLower ew) := by
  obtain ⟨s, w, n, _, hre⟩ :=
    checkSpellingGo_shape dict sim text (findWords text.data) 1 r hr
  subst hre
  refine ⟨generateSuggestions dict sim (pyLower (String.mk w)), String.mk w,
    rfl, rfl, ?_, ?_⟩
  · exact getCloseMatches_length sim (pyLower (String.mk w)) dict 5 (4 / 5)
  · intro x hx
    exact getCloseMatches_mem sim (pyLower (String.mk w)) dict 5 (4 / 5) x hx

/-- Witness for the suggestion-invariant claim: a flagged word over the
empty dictionary carries an empty (hence bounded and floor-respecting)
suggestion list. -/
theorem checkSpelling_suggestions_witness :
    ∃ sgs ew,
      (mkSpellIssue [] (fun _ _ => (1 : ℚ)) "zzqz" 1 0
        "zzqz".data).suggestions = some sgs ∧
      (mkSpellIssue [] (fun _ _ => (1 : ℚ)) "zzqz" 1 0
        "zzqz".data).error_word = some ew ∧
      sgs.length ≤ 5 ∧
      ∀ x ∈ sgs, x ∈ ([] : List String) ∧ (4 : ℚ) / 5 ≤ 1 :=
  checkSpelling_suggestions [] (fun _ _ => (1 : ℚ)) "zzqz"
    (mkSpellIssue [] (fun _ _ => (1 : ℚ)) "zzqz" 1 0 "zzqz".data)
    (by
      have h : checkSpelling [] (fun _ _ => (1 : ℚ)) "zzqz" =
          [mkSpellIssue [] (fun _ _ => (1 : ℚ)) "zzqz" 1 0 "zzqz".data] := rfl
      rw [h]
      exact List.mem_singleton_self _)

/-- Witness for the id/offset claim: the first flagged word of a two-word
misspelled text has offsets inside the text. -/
theorem checkSpelling_ids_offsets_witness :
    ∃ s e,
      (mkSpellIssue [] (fun _ _ => (1 : ℚ)) "zzqz wxyq" 1 0
        "zzqz".data).start_index = some s ∧
      (mkSpellIssue [] (fun _ _ => (1 : ℚ)) "zzqz wxyq" 1 0
        "zzqz".data).end_index = some e ∧ s < e ∧
      e ≤ ("zzqz wxyq" : String).length :=
  (checkSpelling_ids_offsets [] (fun _ _ => (1 : ℚ)) "zzqz wxyq").2.2.1
    (mkSpellIssue [] (fun _ _ => (1 : ℚ)) "zzqz wxyq" 1 0 "zzqz".data)
    (by
      have h : checkSpelling [] (fun _ _ => (1 : ℚ)) "zzqz wxyq" =
          [mkSpellIssue [] (fun _ _ => (1 : ℚ)) "zzqz wxyq" 1 0 "zzqz".data,
           mkSpellIssue [] (fun _ _ => (1 : ℚ)) "zzqz wxyq" 2 5
             "wxyq".data] := rfl
      rw [h]
      exact List.mem_cons_self _ _)
